import Mathlib

/-!
Verification of the rabble party-game server core.

The definitions below are a shallow embedding of the repository's
TypeScript sources:

* the Game Engine (`src/unnamed/part_001`, functions `assignGuessItems`,
  `startGuessingPhase`, `getEligibleGuessers`, `getGuessOptions`,
  `ensureRoundOptions`, `calculateVoteTallies`, `awardPoints`,
  `advanceToNextRound`, `startNextQueuedRound`);
* the SQLite store adapter (`src/unnamed/part_002`);
* the WebSocket protocol handler (`src/src/server/websocket.ts`);
* the HTTP join route (`src/src/server/routes.ts`).

All claims considered here are per-room properties, and every store
operation used by the embedded code touches a single room's rows only,
so the state type `DB` models one room's slice of the store.  Fields
irrelevant to every claim (timestamps `created_at`/`joined_at`/
`submitted_at`/`revealed_at`, autoincrement ids of associations and
guesses) are omitted.  Randomised shuffles (`.sort(() => Math.random()
- 0.5)`, a random permutation of the input array) are modelled as
explicit function parameters; theorems that depend on them assume the
parameter returns a permutation of its input.
-/

namespace Rabble

/-- Room lifecycle status (`RoomStatus` in `src/src/types/game.ts`). -/
inductive RoomStatus
  | lobby
  | submitting
  | guessing
  | lightning
  | results
  | finished
deriving DecidableEq, Repr

/-- Round status (`RoundStatus` in `src/src/types/game.ts`). -/
inductive RoundStatus
  | active
  | voting
  | revealed
  | completed
deriving DecidableEq, Repr

/-- The two per-room round queues (`phase` column of `round_queue`). -/
inductive QueuePhase
  | standard
  | lightning
deriving DecidableEq, Repr

/-- A `users` row (one room, so `room_id` is implicit). -/
structure User where
  id : Nat
  nickname : String
  score : Int
  isHost : Bool
deriving DecidableEq, Repr

/-- A `guess_items` row. -/
structure GuessItem where
  id : Nat
  name : String
  orderIndex : Nat
deriving DecidableEq, Repr

/-- An `associations` row (autoincrement id and timestamp omitted). -/
structure Association where
  userId : Nat
  guessItemId : Nat
  value : String
deriving DecidableEq, Repr

/-- A `guesses` row (autoincrement id and timestamp omitted). -/
structure Guess where
  userId : Nat
  guessItemId : Nat
  guessedItemId : Nat
  roundNumber : Nat
deriving DecidableEq, Repr

/-- A `rounds` row. -/
structure Round where
  id : Nat
  guessItemId : Nat
  roundNumber : Nat
  status : RoundStatus
deriving DecidableEq, Repr

/-- A `round_queue` row: the list position is the list index, `played`
is the consumed flag. -/
structure QueueEntry where
  guessItemId : Nat
  played : Bool
deriving DecidableEq, Repr

/-- One room's slice of the SQLite store (`src/unnamed/part_002`).
`guessItems` is kept in `order_index` order and `standardQueue` /
`lightningQueue` in `position` order, matching the `ORDER BY` clauses
of every query that reads them.  `roundOptions` maps a round number to
the option item ids in `option_order` order. -/
structure DB where
  roomCode : String
  roomStatus : RoomStatus
  users : List User
  guessItems : List GuessItem
  associations : List Association
  guesses : List Guess
  rounds : List Round
  roundOptions : List (Nat × List Nat)
  standardQueue : List QueueEntry
  lightningQueue : List QueueEntry
  nextRoundId : Nat
deriving DecidableEq, Repr

/-! ### Store adapter operations (`src/unnamed/part_002`) -/

/-- `getUserById`: `SELECT * FROM users WHERE id = ?`. -/
def getUserById (db : DB) (userId : Nat) : Option User :=
  db.users.find? (fun u => u.id == userId)

/-- `updateUserScore`: `UPDATE users SET score = score + ? WHERE id = ?`. -/
def updateUserScore (db : DB) (userId : Nat) (scoreIncrement : Int) : DB :=
  { db with users := db.users.map (fun u =>
      if u.id == userId then { u with score := u.score + scoreIncrement } else u) }

/-- `createUser`: inserts a non-host user with score 0.  The random id
generated by `generateUniqueUserId` is passed in as a parameter. -/
def createUser (db : DB) (userId : Nat) (nickname : String) : User × DB :=
  let u : User := { id := userId, nickname := nickname, score := 0, isHost := false }
  (u, { db with users := db.users ++ [u] })

/-- `getAssociationsByGuessItem`:
`SELECT * FROM associations WHERE guess_item_id = ?`. -/
def getAssociationsByGuessItem (db : DB) (guessItemId : Nat) : List Association :=
  db.associations.filter (fun a => a.guessItemId == guessItemId)

/-- `createAssociation`: a plain `INSERT` — the schema has no uniqueness
constraint on `(user_id, guess_item_id)`, so the row is always appended. -/
def createAssociation (db : DB) (userId guessItemId : Nat) (value : String) : DB :=
  { db with associations :=
      db.associations ++ [{ userId := userId, guessItemId := guessItemId, value := value }] }

/-- `createGuess`: a plain `INSERT` — the schema has no uniqueness
constraint on `(user_id, round_number)`, so the row is always appended. -/
def createGuess (db : DB) (userId guessItemId guessedItemId roundNumber : Nat) : DB :=
  { db with guesses := db.guesses ++
      [{ userId := userId, guessItemId := guessItemId,
         guessedItemId := guessedItemId, roundNumber := roundNumber }] }

/-- `getGuessesByRound`: guesses of this room with the given round number
(the SQL join on `users` restricts to the room, which is implicit here). -/
def getGuessesByRound (db : DB) (roundNumber : Nat) : List Guess :=
  db.guesses.filter (fun g => g.roundNumber == roundNumber)

/-- `getGuessByUserAndRound`:
`SELECT * FROM guesses WHERE user_id = ? AND round_number = ?` — `.get`
returns the first matching row. -/
def getGuessByUserAndRound (db : DB) (userId roundNumber : Nat) : Option Guess :=
  (db.guesses.filter (fun g => g.userId == userId && g.roundNumber == roundNumber)).head?

/-- `createRound`: inserts a round with status `active`; the
autoincrement round id is modelled by the `nextRoundId` counter. -/
def createRound (db : DB) (guessItemId roundNumber : Nat) : DB :=
  { db with
      rounds := db.rounds ++
        [{ id := db.nextRoundId, guessItemId := guessItemId,
           roundNumber := roundNumber, status := RoundStatus.active }],
      nextRoundId := db.nextRoundId + 1 }

/-- Helper for `getCurrentRound`: scan for the row with the maximal
`round_number` (`ORDER BY round_number DESC LIMIT 1`). -/
def pickLatest : Option Round → List Round → Option Round
  | acc, [] => acc
  | none, r :: rest => pickLatest (some r) rest
  | some m, r :: rest => pickLatest (some (if m.roundNumber ≤ r.roundNumber then r else m)) rest

/-- `getCurrentRound`:
`SELECT * FROM rounds WHERE room_id = ? ORDER BY round_number DESC LIMIT 1`. -/
def getCurrentRound (db : DB) : Option Round :=
  pickLatest none db.rounds

/-- `updateRoundStatus`: `UPDATE rounds SET status = ? WHERE id = ?`
(the `revealed_at` timestamp it also writes is not modelled). -/
def updateRoundStatus (db : DB) (roundId : Nat) (status : RoundStatus) : DB :=
  { db with rounds := db.rounds.map (fun r =>
      if r.id == roundId then { r with status := status } else r) }

/-- `updateRoomStatus`: `UPDATE rooms SET status = ? WHERE id = ?`. -/
def updateRoomStatus (db : DB) (status : RoomStatus) : DB :=
  { db with roomStatus := status }

/-- The stored option ids for a round (empty when none were persisted). -/
def getRoundOptionIds (db : DB) (roundNumber : Nat) : List Nat :=
  match db.roundOptions.find? (fun p => p.1 == roundNumber) with
  | some p => p.2
  | none => []

/-- `getRoundOptions`: join of `round_options` with `guess_items`
ordered by `option_order`; each stored id contributes the matching
item rows. -/
def getRoundOptions (db : DB) (roundNumber : Nat) : List GuessItem :=
  (getRoundOptionIds db roundNumber).flatMap
    (fun oid => db.guessItems.filter (fun it => it.id == oid))

/-- `setRoundOptions`: delete the round's rows, then insert the given ids
in order inside one transaction. -/
def setRoundOptions (db : DB) (roundNumber : Nat) (guessItemIds : List Nat) : DB :=
  { db with roundOptions :=
      (roundNumber, guessItemIds) :: db.roundOptions.filter (fun p => !(p.1 == roundNumber)) }

/-- Read one of the two queues of the room. -/
def getQueue (db : DB) : QueuePhase → List QueueEntry
  | QueuePhase.standard => db.standardQueue
  | QueuePhase.lightning => db.lightningQueue

/-- Replace one of the two queues of the room. -/
def setQueue (db : DB) : QueuePhase → List QueueEntry → DB
  | QueuePhase.standard, q => { db with standardQueue := q }
  | QueuePhase.lightning, q => { db with lightningQueue := q }

/-- `setRoundQueue`: delete the phase's rows, then insert the ids with
`played = 0` in position order. -/
def setRoundQueue (db : DB) (phase : QueuePhase) (guessItemIds : List Nat) : DB :=
  setQueue db phase (guessItemIds.map (fun i => { guessItemId := i, played := false }))

/-- `getNextQueuedItem`: first row of the phase with `played = 0`
in position order. -/
def getNextQueuedItem (db : DB) (phase : QueuePhase) : Option Nat :=
  (((getQueue db phase).filter (fun e => !e.played)).head?).map (fun e => e.guessItemId)

/-- `markQueuedItemPlayed`:
`UPDATE round_queue SET played = 1 WHERE ... AND guess_item_id = ?`. -/
def markQueuedItemPlayed (db : DB) (phase : QueuePhase) (guessItemId : Nat) : DB :=
  setQueue db phase ((getQueue db phase).map (fun e =>
    if e.guessItemId == guessItemId then { e with played := true } else e))

/-! ### Game Engine (`src/unnamed/part_001`) -/

def MAX_STANDARD_ROUNDS : Nat := 10
def PLAYER_CAP_THRESHOLD : Nat := 15

/-- `getEligibleGuessers`: non-host players who did not author an
association for the item. -/
def getEligibleGuessers (db : DB) (guessItemId : Nat) : List User :=
  let players := db.users.filter (fun u => !u.isHost)
  let excludedUserIds := (getAssociationsByGuessItem db guessItemId).map (fun a => a.userId)
  players.filter (fun u => !(excludedUserIds.contains u.id))

/-- `getGuessOptions`: the correct item plus up to 3 random other items,
in a random display order.  The two shuffles are explicit parameters
(`shuffleOthers` for the distractor draw, `shuffleFinal` for the display
order).  Returns `none` when the correct item is missing (the source
throws `"Correct item not found"`). -/
def getGuessOptions (db : DB) (correctItemId : Nat)
    (shuffleOthers shuffleFinal : List GuessItem → List GuessItem) :
    Option (List GuessItem) :=
  let allItems := db.guessItems
  match allItems.find? (fun i => i.id == correctItemId) with
  | none => none
  | some correctItem =>
    let otherItems := allItems.filter (fun i => !(i.id == correctItemId))
    let shuffled := shuffleOthers otherItems
    some (shuffleFinal (correctItem :: shuffled.take (min 3 shuffled.length)))

/-- `ensureRoundOptions`: return the persisted options when any exist,
otherwise generate, persist and return fresh ones. -/
def ensureRoundOptions (db : DB) (roundNumber correctItemId : Nat)
    (shuffleOthers shuffleFinal : List GuessItem → List GuessItem) :
    Option (List GuessItem × DB) :=
  let existing := getRoundOptions db roundNumber
  if existing.length > 0 then some (existing, db)
  else
    match getGuessOptions db correctItemId shuffleOthers shuffleFinal with
    | none => none
    | some options =>
      some (options, setRoundOptions db roundNumber (options.map (fun o => o.id)))

/-- A vote tally entry (`VoteTally` in `src/src/types/game.ts`). -/
structure VoteTally where
  guessItemId : Nat
  guessItemName : String
  voteCount : Nat
deriving DecidableEq, Repr

/-- Count the round's guesses per guessed item, in first-guess insertion
order (a JS `Map` preserves insertion order). -/
def buildTallies (guesses : List Guess) : List (Nat × Nat) :=
  guesses.foldl
    (fun acc g =>
      if acc.any (fun p => p.1 == g.guessedItemId) then
        acc.map (fun p => if p.1 == g.guessedItemId then (p.1, p.2 + 1) else p)
      else acc ++ [(g.guessedItemId, 1)])
    []

/-- Insert a tally into a descending-by-count list, after entries with a
count at least as large (stable). -/
def insertTally (t : VoteTally) : List VoteTally → List VoteTally
  | [] => [t]
  | h :: rest => if h.voteCount < t.voteCount then t :: h :: rest else h :: insertTally t rest

/-- Stable descending-by-count insertion sort. -/
def sortTalliesDesc : List VoteTally → List VoteTally
  | [] => []
  | h :: rest => insertTally h (sortTalliesDesc rest)

/-- `calculateVoteTallies`: group guesses by guessed item, attach the item
name (`"Unknown"` when absent), sort descending by count.  The relative
order of equal counts is implementation-defined in the source
(`Array.sort`); the stable sort above models V8's stable sort. -/
def calculateVoteTallies (db : DB) (roundNumber : Nat) : List VoteTally :=
  let entries := (buildTallies (getGuessesByRound db roundNumber)).map (fun p =>
    { guessItemId := p.1,
      guessItemName :=
        match db.guessItems.find? (fun i => i.id == p.1) with
        | some item => item.name
        | none => "Unknown",
      voteCount := p.2 })
  sortTalliesDesc entries

/-- `awardPoints`: every guess of the round whose `guessed_item_id` equals
the correct item adds 10 to that guesser's score; no guard against being
run twice for the same round. -/
def awardPoints (db : DB) (roundNumber correctItemId : Nat) : DB :=
  (getGuessesByRound db roundNumber).foldl
    (fun d g =>
      if g.guessedItemId == correctItemId then updateUserScore d g.userId 10 else d)
    db

/-- `startNextQueuedRound`: pop the first unplayed entry of the phase's
queue, mark it played, create the next round (number = current round's
number + 1, or 1), and set the room status to match the phase. -/
def startNextQueuedRound (db : DB) (phase : QueuePhase) : Bool × DB :=
  match getNextQueuedItem db phase with
  | none => (false, db)
  | some itemId =>
    let db1 := markQueuedItemPlayed db phase itemId
    let nextRoundNumber :=
      (match getCurrentRound db1 with
       | some r => r.roundNumber
       | none => 0) + 1
    let db2 := createRound db1 itemId nextRoundNumber
    let db3 := updateRoomStatus db2
      (match phase with
       | QueuePhase.lightning => RoomStatus.lightning
       | QueuePhase.standard => RoomStatus.guessing)
    (true, db3)

/-- `advanceToNextRound`: mark the current round completed, then try the
queues according to the room status; finish the game on exhaustion. -/
def advanceToNextRound (db : DB) : Bool × DB :=
  match getCurrentRound db with
  | none => (false, db)
  | some currentRound =>
    let db1 := updateRoundStatus db currentRound.id RoundStatus.completed
    match db1.roomStatus with
    | RoomStatus.guessing =>
      let res := startNextQueuedRound db1 QueuePhase.standard
      if res.1 then (true, res.2)
      else
        let lres := startNextQueuedRound res.2 QueuePhase.lightning
        if lres.1 then (true, updateRoomStatus lres.2 RoomStatus.lightning)
        else (false, updateRoomStatus lres.2 RoomStatus.finished)
    | RoomStatus.lightning =>
      let lres := startNextQueuedRound db1 QueuePhase.lightning
      if lres.1 then (true, lres.2)
      else (false, updateRoomStatus lres.2 RoomStatus.finished)
    | _ => (false, db1)

/-- The playable items of `startGuessingPhase`: guess items that received
at least one association. -/
def playableItems (db : DB) : List GuessItem :=
  db.guessItems.filter (fun item =>
    ((db.associations.map (fun a => a.guessItemId)).contains item.id))

/-- `startGuessingPhase`: drop items without associations; finish the room
if none remain; otherwise shuffle, split into the standard/lightning
queues (capped at `MAX_STANDARD_ROUNDS` when the non-host player count
exceeds `PLAYER_CAP_THRESHOLD`), persist both queues, set the room to
`guessing` and start the first queued round.  Returns `none` when the
room has no guess items at all (the source throws). -/
def startGuessingPhase (db : DB) (shuffle : List GuessItem → List GuessItem) : Option DB :=
  if db.guessItems.length == 0 then none
  else if (playableItems db).length == 0 then some (updateRoomStatus db RoomStatus.finished)
  else
    let players := db.users.filter (fun u => !u.isHost)
    let shouldCap := players.length > PLAYER_CAP_THRESHOLD
    let shuffled := shuffle (playableItems db)
    let standardCount :=
      if shouldCap then min MAX_STANDARD_ROUNDS shuffled.length else shuffled.length
    let standardItems := shuffled.take standardCount
    let lightningItems := shuffled.drop standardCount
    let db1 := setRoundQueue db QueuePhase.standard (standardItems.map (fun item => item.id))
    let db2 := setRoundQueue db1 QueuePhase.lightning (lightningItems.map (fun item => item.id))
    let db3 := updateRoomStatus db2 RoomStatus.guessing
    let res := startNextQueuedRound db3 QueuePhase.standard
    let db5 :=
      if !res.1 && decide (lightningItems.length > 0) then
        (startNextQueuedRound res.2 QueuePhase.lightning).2
      else res.2
    some db5

/-- Per-item quota of `assignGuessItems`:
`usersPerItem + (itemIndex < remainder ? 1 : 0)`. -/
def assignQuota (base rem idx : Nat) : Nat :=
  base + (if idx < rem then 1 else 0)

/-- The `guessItems.forEach` walk of `assignGuessItems`: consume the
quota of each item from the shuffled player list, pairing
`(user id, item id)`.  `take`/`drop` reproduce the
`userIndex < shuffledUsers.length` bound. -/
def assignWalk (shuffledUsers : List User) (items : List GuessItem)
    (idx base rem : Nat) : List (Nat × Nat) :=
  match items with
  | [] => []
  | item :: rest =>
    let count := assignQuota base rem idx
    (shuffledUsers.take count).map (fun u => (u.id, item.id)) ++
      assignWalk (shuffledUsers.drop count) rest (idx + 1) base rem

/-- `assignGuessItems`: distribute the non-host players over the items in
order-index order, `floor(N/M)` per item with the first `N mod M` items
receiving one extra; the player order is randomised by `shuffle`.
Returns `none` when there are no items or no players (the source
throws).  The source accumulates into a `Map<userId, itemId>`; the
insertion list is returned here, which determines that map whenever
player ids are distinct. -/
def assignGuessItems (db : DB) (shuffle : List User → List User) :
    Option (List (Nat × Nat)) :=
  let players := db.users.filter (fun u => !u.isHost)
  if db.guessItems.length == 0 then none
  else if players.length == 0 then none
  else
    let usersPerItem := players.length / db.guessItems.length
    let remainder := players.length % db.guessItems.length
    some (assignWalk (shuffle players) db.guessItems 0 usersPerItem remainder)

/-- Total quota consumed by the walk over `n` items starting at item
index `idx` (specification device for the proofs about `assignWalk`). -/
def quotaSum (base rem : Nat) : Nat → Nat → Nat
  | _, 0 => 0
  | idx, n + 1 => assignQuota base rem idx + quotaSum base rem (idx + 1) n

/-! ### Protocol handler (`src/src/server/websocket.ts`)

Handlers return the new store state together with the list of messages
broadcast to the room, in emission order.  Unicasts and payload fields
that no claim inspects are reduced to the message kind; the
`guess_submitted` payload keeps the guess-count fields that claim C7
is about. -/

/-- An outbound broadcast message. -/
inductive OutEvent
  | roomState
  | votesRevealed (tallies : List VoteTally)
  | answerRevealed (correctItemId : Nat)
  | guessSubmitted (userId : Nat) (allGuessed : Bool) (guessCount totalEligible : Nat)
  | errorMsg
deriving DecidableEq, Repr

/-- `handleSubmitGuess`: guarded by round existence, `active` status,
eligibility, option validity and absence of a prior guess for the
round; only then persists the guess and broadcasts the new count.
An exception escaping `ensureRoundOptions` is caught by the message
loop, which unicasts a generic error (`OutEvent.errorMsg`).  The JS
falsy test `!guessedItemId` rejects both a missing payload and the
id 0. -/
def handleSubmitGuess (db : DB) (userId : Nat) (payload : Option Nat)
    (shuffleOthers shuffleFinal : List GuessItem → List GuessItem) :
    DB × List OutEvent :=
  match getCurrentRound db with
  | none => (db, [])
  | some round =>
    if !(round.status == RoundStatus.active) then (db, [])
    else
      let eligibleUsers := getEligibleGuessers db round.guessItemId
      if !(eligibleUsers.any (fun u => u.id == userId)) then (db, [])
      else
        match ensureRoundOptions db round.roundNumber round.guessItemId
            shuffleOthers shuffleFinal with
        | none => (db, [OutEvent.errorMsg])
        | some (options, db1) =>
          let validOptionIds := options.map (fun o => o.id)
          match payload with
          | none => (db1, [])
          | some guessedItemId =>
            if guessedItemId == 0 then (db1, [])
            else if !(validOptionIds.contains guessedItemId) then (db1, [])
            else
              match getGuessByUserAndRound db1 userId round.roundNumber with
              | some _ => (db1, [])
              | none =>
                let db2 := createGuess db1 userId round.guessItemId guessedItemId
                  round.roundNumber
                let guesses := getGuessesByRound db2 round.roundNumber
                let allGuessed := guesses.length ≥ eligibleUsers.length
                (db2,
                  [OutEvent.guessSubmitted userId allGuessed guesses.length
                    eligibleUsers.length,
                   OutEvent.roomState])

/-- `handleRevealVotes`: host-only; sets the current round's status to
`voting` and broadcasts the tallies.  There is no guard on the round's
current status. -/
def handleRevealVotes (db : DB) (userId : Nat) : DB × List OutEvent :=
  match getUserById db userId with
  | none => (db, [])
  | some user =>
    if !user.isHost then (db, [])
    else
      match getCurrentRound db with
      | none => (db, [])
      | some round =>
        let db1 := updateRoundStatus db round.id RoundStatus.voting
        let tallies := calculateVoteTallies db1 round.roundNumber
        (db1, [OutEvent.votesRevealed tallies, OutEvent.roomState])

/-- `handleRevealAnswer`: host-only; sets the current round's status to
`revealed` and awards points.  There is no guard on the round's current
status, so nothing prevents running it twice for the same round. -/
def handleRevealAnswer (db : DB) (userId : Nat) : DB × List OutEvent :=
  match getUserById db userId with
  | none => (db, [])
  | some user =>
    if !user.isHost then (db, [])
    else
      match getCurrentRound db with
      | none => (db, [])
      | some round =>
        let db1 := updateRoundStatus db round.id RoundStatus.revealed
        let db2 := awardPoints db1 round.roundNumber round.guessItemId
        (db2, [OutEvent.answerRevealed round.guessItemId, OutEvent.roomState])

/-- Inbound client messages (the subset of the protocol the claims
exercise). -/
inductive Msg
  | submitGuess (userId : Nat) (guessedItemId : Option Nat)
  | revealVotes (userId : Nat)
  | revealAnswer (userId : Nat)
deriving DecidableEq, Repr

/-- Dispatch one inbound message (the `handleMessage` switch). -/
def stepMsg (shuffleOthers shuffleFinal : List GuessItem → List GuessItem)
    (db : DB) : Msg → DB × List OutEvent
  | Msg.submitGuess u g => handleSubmitGuess db u g shuffleOthers shuffleFinal
  | Msg.revealVotes u => handleRevealVotes db u
  | Msg.revealAnswer u => handleRevealAnswer db u

/-- Process a sequence of inbound messages, returning the final state. -/
def runMsgs (shuffleOthers shuffleFinal : List GuessItem → List GuessItem)
    (db : DB) (msgs : List Msg) : DB :=
  msgs.foldl (fun d m => (stepMsg shuffleOthers shuffleFinal d m).1) db

/-- The identity shuffle, used to run concrete message sequences. -/
def idShuffle : List GuessItem → List GuessItem := fun l => l

/-- Observable: a user's score. -/
def scoreOf (db : DB) (userId : Nat) : Option Int :=
  (getUserById db userId).map (fun u => u.score)

/-- Observable: the current round's status. -/
def currentRoundStatus (db : DB) : Option RoundStatus :=
  (getCurrentRound db).map (fun r => r.status)

/-- Number of stored associations for a `(userId, guessItemId)` pair. -/
def countAssociationPair (db : DB) (userId guessItemId : Nat) : Nat :=
  (db.associations.filter
    (fun a => a.userId == userId && a.guessItemId == guessItemId)).length

/-- Number of stored guesses for a `(userId, roundNumber)` pair. -/
def countGuessPair (db : DB) (userId roundNumber : Nat) : Nat :=
  (db.guesses.filter
    (fun g => g.userId == userId && g.roundNumber == roundNumber)).length

/-! ### HTTP join route (`src/src/server/routes.ts`) -/

/-- An HTTP reply: either the created user, or a `Response.json` error
with its status code and message. -/
inductive ApiReply
  | ok (user : User)
  | err (status : Nat) (message : String)
deriving DecidableEq, Repr

/-- Character-wise model of JavaScript `String.prototype.trim` (the
built-in `String.trim` is not kernel-reducible, so the equivalent
explicit list traversal is used). -/
def trimString (s : String) : String :=
  String.mk ((((s.data.dropWhile (fun c => c.isWhitespace)).reverse).dropWhile
    (fun c => c.isWhitespace)).reverse)

/-- Character-wise model of `String.prototype.slice(0, n)`. -/
def takeString (n : Nat) (s : String) : String :=
  String.mk (s.data.take n)

/-- Character-wise model of `String.prototype.toUpperCase` (ASCII). -/
def upperString (s : String) : String :=
  String.mk (s.data.map Char.toUpper)

/-- `POST /api/room/join` for the modelled room: trims the inputs, looks
the room up by upper-cased code, rejects non-lobby rooms and rooms with
50 or more users, otherwise creates one non-host user.  The store's
random user id is the `newUserId` parameter. -/
def joinRoom (db : DB) (rawCode rawNickname : String) (newUserId : Nat) :
    ApiReply × DB :=
  let code := trimString rawCode
  let nickname := takeString 20 (trimString rawNickname)
  if code == "" || nickname == "" then
    (ApiReply.err 400 "Code and nickname are required", db)
  else if !(upperString code == db.roomCode) then
    (ApiReply.err 404 "Room not found", db)
  else if !(db.roomStatus == RoomStatus.lobby) then
    (ApiReply.err 400 "Room has already started", db)
  else if db.users.length ≥ 50 then
    (ApiReply.err 400 "Room is full", db)
  else
    let res := createUser db newUserId nickname
    (ApiReply.ok res.1, res.2)

/-! ### Concrete states used by the theorems -/

/-- A mid-game room: four non-host players, four items each having one
association, round 1 on item 10 (`"Pizza"`) active, item 10 already
consumed from the standard queue.  Player 2 did not author the
association for item 10, so player 2 is an eligible guesser. -/
def dbGame : DB :=
  { roomCode := "GAME"
    roomStatus := RoomStatus.guessing
    users := [{ id := 1, nickname := "host", score := 0, isHost := true },
              { id := 2, nickname := "ana", score := 0, isHost := false },
              { id := 3, nickname := "bo", score := 0, isHost := false },
              { id := 4, nickname := "cy", score := 0, isHost := false },
              { id := 5, nickname := "di", score := 0, isHost := false }]
    guessItems := [{ id := 10, name := "Pizza", orderIndex := 0 },
                   { id := 11, name := "Sushi", orderIndex := 1 },
                   { id := 12, name := "Tacos", orderIndex := 2 },
                   { id := 13, name := "Ramen", orderIndex := 3 }]
    associations := [{ userId := 3, guessItemId := 10, value := "cheese" },
                     { userId := 2, guessItemId := 11, value := "fish" },
                     { userId := 4, guessItemId := 12, value := "salsa" },
                     { userId := 5, guessItemId := 13, value := "broth" }]
    guesses := []
    rounds := [{ id := 100, guessItemId := 10, roundNumber := 1,
                 status := RoundStatus.active }]
    roundOptions := []
    standardQueue := [{ guessItemId := 10, played := true },
                      { guessItemId := 11, played := false },
                      { guessItemId := 12, played := false },
                      { guessItemId := 13, played := false }]
    lightningQueue := []
    nextRoundId := 101 }

/-- A store state that already holds an association for the pair
`(userId 1, guessItemId 2)` and a guess for `(userId 1, roundNumber 3)`. -/
def dbDup : DB :=
  { roomCode := "DUPS"
    roomStatus := RoomStatus.guessing
    users := [{ id := 1, nickname := "p", score := 0, isHost := false }]
    guessItems := [{ id := 2, name := "Pizza", orderIndex := 0 },
                   { id := 10, name := "Sushi", orderIndex := 1 },
                   { id := 11, name := "Tacos", orderIndex := 2 }]
    associations := [{ userId := 1, guessItemId := 2, value := "first" }]
    guesses := [{ userId := 1, guessItemId := 10, guessedItemId := 11, roundNumber := 3 }]
    rounds := []
    roundOptions := []
    standardQueue := []
    lightningQueue := []
    nextRoundId := 1 }

/-- A large room about to enter the guessing phase: one host plus 20
non-host players (over the 15-player cap) and 12 items, each with one
association — the spec's capped-queue scenario. -/
def dbBig : DB :=
  { roomCode := "BIGR"
    roomStatus := RoomStatus.submitting
    users := { id := 100, nickname := "host", score := 0, isHost := true } ::
      (List.range 20).map (fun i =>
        { id := i + 1, nickname := "p", score := 0, isHost := false })
    guessItems := (List.range 12).map (fun i =>
      { id := 200 + i, name := "it", orderIndex := i })
    associations := (List.range 12).map (fun i =>
      { userId := i + 1, guessItemId := 200 + i, value := "a" })
    guesses := []
    rounds := []
    roundOptions := []
    standardQueue := []
    lightningQueue := []
    nextRoundId := 1 }

/-- A lobby-status room already holding 50 users (host included). -/
def dbFull : DB :=
  { roomCode := "FULL"
    roomStatus := RoomStatus.lobby
    users := (List.range 50).map (fun i =>
      { id := i + 1, nickname := "u", score := 0, isHost := i == 0 })
    guessItems := []
    associations := []
    guesses := []
    rounds := []
    roundOptions := []
    standardQueue := []
    lightningQueue := []
    nextRoundId := 1 }

/-! ### Helper lemmas -/

/-- `pickLatest` commutes with mapping a round-number-preserving
function over the accumulator and the list. -/
theorem pickLatest_map (f : Round → Round)
    (hf : ∀ r, (f r).roundNumber = r.roundNumber) :
    ∀ (l : List Round) (acc : Option Round),
      pickLatest (acc.map f) (l.map f) = (pickLatest acc l).map f := by
  intro l
  induction l with
  | nil => intro acc; cases acc <;> simp [pickLatest]
  | cons r rest ih =>
    intro acc
    cases acc with
    | none => simpa [pickLatest] using ih (some r)
    | some m =>
      have hsel : (if (f m).roundNumber ≤ (f r).roundNumber then f r else f m)
          = f (if m.roundNumber ≤ r.roundNumber then r else m) := by
        rw [hf, hf]; split <;> rfl
      show pickLatest (some (if (f m).roundNumber ≤ (f r).roundNumber then f r else f m))
          (rest.map f) = (pickLatest (some (if m.roundNumber ≤ r.roundNumber then r else m)) rest).map f
      rw [hsel]
      exact ih (some (if m.roundNumber ≤ r.roundNumber then r else m))

/-- Updating a round's status shifts `getCurrentRound` by the same
per-row update. -/
theorem getCurrentRound_updateRoundStatus (db : DB) (i : Nat) (s : RoundStatus) :
    getCurrentRound (updateRoundStatus db i s)
      = (getCurrentRound db).map
          (fun r => if r.id == i then { r with status := s } else r) := by
  have hf : ∀ r : Round,
      ((fun r : Round => if r.id == i then { r with status := s } else r) r).roundNumber
        = r.roundNumber := by
    intro r
    by_cases h : (r.id == i) = true <;> simp [h]
  simpa [getCurrentRound, updateRoundStatus] using
    pickLatest_map _ hf db.rounds none

/-- `startNextQueuedRound` on an exhausted queue does nothing. -/
theorem startNextQueuedRound_none (d : DB) (p : QueuePhase)
    (hq : getNextQueuedItem d p = none) :
    startNextQueuedRound d p = (false, d) := by
  simp [startNextQueuedRound, hq]

/-- Marking a queue entry played leaves everything but the queues
unchanged. -/
theorem getCurrentRound_markQueuedItemPlayed (d : DB) (p : QueuePhase) (x : Nat) :
    getCurrentRound (markQueuedItemPlayed d p x) = getCurrentRound d := by
  cases p <;> rfl

theorem rounds_markQueuedItemPlayed (d : DB) (p : QueuePhase) (x : Nat) :
    (markQueuedItemPlayed d p x).rounds = d.rounds := by
  cases p <;> rfl

theorem nextRoundId_markQueuedItemPlayed (d : DB) (p : QueuePhase) (x : Nat) :
    (markQueuedItemPlayed d p x).nextRoundId = d.nextRoundId := by
  cases p <;> rfl

/-- `startNextQueuedRound` on a non-exhausted queue: the resulting state,
spelled out. -/
theorem startNextQueuedRound_some (d : DB) (p : QueuePhase) (it : Nat)
    (hq : getNextQueuedItem d p = some it) :
    startNextQueuedRound d p =
      (true,
        updateRoomStatus
          (createRound (markQueuedItemPlayed d p it) it
            ((match getCurrentRound d with
              | some r => r.roundNumber
              | none => 0) + 1))
          (match p with
           | QueuePhase.lightning => RoomStatus.lightning
           | QueuePhase.standard => RoomStatus.guessing)) := by
  cases p <;>
    simp only [startNextQueuedRound, hq, getCurrentRound_markQueuedItemPlayed]

/-- C9: `getEligibleGuessers` returns exactly the non-host players of the
room who did not author an association for the given item; in particular
the host is never among them. -/
theorem getEligibleGuessers_exact (db : DB) (guessItemId : Nat) (u : User) :
    u ∈ getEligibleGuessers db guessItemId ↔
      (u ∈ db.users ∧ u.isHost = false ∧
        ∀ a ∈ db.associations, a.guessItemId = guessItemId → a.userId ≠ u.id) := by
  simp only [getEligibleGuessers, getAssociationsByGuessItem, List.mem_filter,
    List.contains_eq_any_beq, Bool.not_eq_true', List.any_eq_false, List.mem_map,
    Bool.not_eq_true]
  constructor
  · rintro ⟨⟨hu, hhost⟩, hnone⟩
    refine ⟨hu, by simpa using hhost, ?_⟩
    intro a ha hitem heq
    have := hnone u.id ⟨a, ⟨ha, by simpa using hitem⟩, heq⟩
    simp at this
  · rintro ⟨hu, hhost, hnone⟩
    refine ⟨⟨hu, by simpa using hhost⟩, ?_⟩
    intro x hx
    rcases hx with ⟨a, ⟨ha, hitem⟩, rfl⟩
    have : a.userId ≠ u.id := hnone a ha (by simpa using hitem)
    simpa using fun h => this h.symm

@[simp] theorem rounds_updateRoomStatus (d : DB) (s : RoomStatus) :
    (updateRoomStatus d s).rounds = d.rounds := rfl

@[simp] theorem roomStatus_updateRoomStatus (d : DB) (s : RoomStatus) :
    (updateRoomStatus d s).roomStatus = s := rfl

@[simp] theorem standardQueue_updateRoomStatus (d : DB) (s : RoomStatus) :
    (updateRoomStatus d s).standardQueue = d.standardQueue := rfl

@[simp] theorem lightningQueue_updateRoomStatus (d : DB) (s : RoomStatus) :
    (updateRoomStatus d s).lightningQueue = d.lightningQueue := rfl

/-- C1: `advanceToNextRound` marks the current round completed and then:
with room status `guessing` it starts the next unplayed standard-queue
round, falls through to the first lightning-queue round (switching the
room to `lightning`) when the standard queue is exhausted, and sets the
room `finished` when both are exhausted; with room status `lightning`
only the lightning queue is tried and its exhaustion finishes the game;
it returns true iff a new round was started. -/
theorem advanceToNextRound_spec (db : DB) :
    (getCurrentRound db = none → advanceToNextRound db = (false, db)) ∧
    ((advanceToNextRound db).1 = true ↔
      (advanceToNextRound db).2.rounds.length = db.rounds.length + 1) ∧
    (∀ r, getCurrentRound db = some r →
      (db.roomStatus = RoomStatus.guessing →
        (∀ it, getNextQueuedItem db QueuePhase.standard = some it →
          (advanceToNextRound db).1 = true ∧
          (advanceToNextRound db).2.roomStatus = RoomStatus.guessing ∧
          (advanceToNextRound db).2.rounds
            = (updateRoundStatus db r.id RoundStatus.completed).rounds ++
              [{ id := db.nextRoundId, guessItemId := it,
                 roundNumber := r.roundNumber + 1, status := RoundStatus.active }]) ∧
        (getNextQueuedItem db QueuePhase.standard = none →
          (∀ it, getNextQueuedItem db QueuePhase.lightning = some it →
            (advanceToNextRound db).1 = true ∧
            (advanceToNextRound db).2.roomStatus = RoomStatus.lightning ∧
            (advanceToNextRound db).2.rounds
              = (updateRoundStatus db r.id RoundStatus.completed).rounds ++
                [{ id := db.nextRoundId, guessItemId := it,
                   roundNumber := r.roundNumber + 1, status := RoundStatus.active }]) ∧
          (getNextQueuedItem db QueuePhase.lightning = none →
            advanceToNextRound db
              = (false,
                  updateRoomStatus (updateRoundStatus db r.id RoundStatus.completed)
                    RoomStatus.finished)))) ∧
      (db.roomStatus = RoomStatus.lightning →
        (∀ it, getNextQueuedItem db QueuePhase.lightning = some it →
          (advanceToNextRound db).1 = true ∧
          (advanceToNextRound db).2.roomStatus = RoomStatus.lightning ∧
          (advanceToNextRound db).2.rounds
            = (updateRoundStatus db r.id RoundStatus.completed).rounds ++
              [{ id := db.nextRoundId, guessItemId := it,
                 roundNumber := r.roundNumber + 1, status := RoundStatus.active }]) ∧
        (getNextQueuedItem db QueuePhase.lightning = none →
          advanceToNextRound db
            = (false,
                updateRoomStatus (updateRoundStatus db r.id RoundStatus.completed)
                  RoomStatus.finished))) ∧
      (db.roomStatus ≠ RoomStatus.guessing → db.roomStatus ≠ RoomStatus.lightning →
        advanceToNextRound db = (false, updateRoundStatus db r.id RoundStatus.completed))) := by
  rcases hcur : getCurrentRound db with _ | r
  · have hadv : advanceToNextRound db = (false, db) := by
      simp [advanceToNextRound, hcur]
    exact ⟨fun _ => hadv, by rw [hadv]; simp,
      fun r hr => Option.noConfusion hr⟩
  · have hcur1 : getCurrentRound (updateRoundStatus db r.id RoundStatus.completed)
        = some { r with status := RoundStatus.completed } := by
      rw [getCurrentRound_updateRoundStatus, hcur]
      simp
    have hq1 : ∀ p, getNextQueuedItem (updateRoundStatus db r.id RoundStatus.completed) p
        = getNextQueuedItem db p := by
      intro p; cases p <;> rfl
    have hst1 : (updateRoundStatus db r.id RoundStatus.completed).roomStatus
        = db.roomStatus := rfl
    have hlen1 : (updateRoundStatus db r.id RoundStatus.completed).rounds.length
        = db.rounds.length := by
      simp [updateRoundStatus]
    have hadv_started : ∀ p it, getNextQueuedItem db p = some it →
        startNextQueuedRound (updateRoundStatus db r.id RoundStatus.completed) p
          = (true,
              updateRoomStatus
                (createRound
                  (markQueuedItemPlayed (updateRoundStatus db r.id RoundStatus.completed)
                    p it)
                  it (r.roundNumber + 1))
                (match p with
                 | QueuePhase.lightning => RoomStatus.lightning
                 | QueuePhase.standard => RoomStatus.guessing)) := by
      intro p it hq
      rw [startNextQueuedRound_some _ p it (by rw [hq1]; exact hq), hcur1]
      cases p <;> rfl
    have hrounds_started : ∀ p it,
        (createRound
          (markQueuedItemPlayed (updateRoundStatus db r.id RoundStatus.completed) p it)
          it (r.roundNumber + 1)).rounds
        = (updateRoundStatus db r.id RoundStatus.completed).rounds ++
            [{ id := db.nextRoundId, guessItemId := it,
               roundNumber := r.roundNumber + 1, status := RoundStatus.active }] := by
      intro p it
      show (markQueuedItemPlayed (updateRoundStatus db r.id RoundStatus.completed) p it).rounds
          ++ _ = _
      rw [rounds_markQueuedItemPlayed, nextRoundId_markQueuedItemPlayed]
      rfl
    rcases hst : db.roomStatus
    case guessing =>
      rcases hqs : getNextQueuedItem db QueuePhase.standard with _ | it
      · -- standard queue exhausted
        have h1 : startNextQueuedRound (updateRoundStatus db r.id RoundStatus.completed)
            QueuePhase.standard = (false, updateRoundStatus db r.id RoundStatus.completed) :=
          startNextQueuedRound_none _ _ (by rw [hq1]; exact hqs)
        rcases hql : getNextQueuedItem db QueuePhase.lightning with _ | it
        · -- both queues exhausted
          have h2 : startNextQueuedRound (updateRoundStatus db r.id RoundStatus.completed)
              QueuePhase.lightning
              = (false, updateRoundStatus db r.id RoundStatus.completed) :=
            startNextQueuedRound_none _ _ (by rw [hq1]; exact hql)
          have hadv : advanceToNextRound db
              = (false,
                  updateRoomStatus (updateRoundStatus db r.id RoundStatus.completed)
                    RoomStatus.finished) := by
            simp [advanceToNextRound, hcur, hst1, hst, h1, h2]
          refine ⟨fun h => Option.noConfusion h, by rw [hadv]; simp [hlen1], ?_⟩
          intro q hq
          cases Option.some.inj hq
          refine ⟨fun _ => ⟨fun it2 hit2 => Option.noConfusion hit2,
            fun _ => ⟨fun it2 hit2 => Option.noConfusion hit2, fun _ => hadv⟩⟩,
            fun h => RoomStatus.noConfusion h, fun h _ => absurd rfl h⟩
        · -- fall through to the lightning queue
          have h2 := hadv_started QueuePhase.lightning it hql
          have hadv : advanceToNextRound db
              = (true,
                  updateRoomStatus
                    (updateRoomStatus
                      (createRound
                        (markQueuedItemPlayed
                          (updateRoundStatus db r.id RoundStatus.completed)
                          QueuePhase.lightning it)
                        it (r.roundNumber + 1))
                      RoomStatus.lightning)
                    RoomStatus.lightning) := by
            simp [advanceToNextRound, hcur, hst1, hst, h1, h2]
          refine ⟨fun h => Option.noConfusion h,
            by rw [hadv]; simp [hrounds_started QueuePhase.lightning it, hlen1], ?_⟩
          intro q hq
          cases Option.some.inj hq
          refine ⟨fun _ => ⟨fun it2 hit2 => Option.noConfusion hit2, fun _ =>
            ⟨fun it2 hit2 => ?_, fun hnone => Option.noConfusion hnone⟩⟩,
            fun h => RoomStatus.noConfusion h, fun h _ => absurd rfl h⟩
          cases Option.some.inj hit2
          rw [hadv]
          exact ⟨rfl, rfl, by
            simpa using hrounds_started QueuePhase.lightning it⟩
      · -- standard queue has an unplayed item
        have h1 := hadv_started QueuePhase.standard it hqs
        have hadv : advanceToNextRound db
            = (true,
                updateRoomStatus
                  (createRound
                    (markQueuedItemPlayed (updateRoundStatus db r.id RoundStatus.completed)
                      QueuePhase.standard it)
                    it (r.roundNumber + 1))
                  RoomStatus.guessing) := by
          simp [advanceToNextRound, hcur, hst1, hst, h1]
        refine ⟨fun h => Option.noConfusion h,
          by rw [hadv]; simp [hrounds_started QueuePhase.standard it, hlen1], ?_⟩
        intro q hq
        cases Option.some.inj hq
        refine ⟨fun _ => ⟨fun it2 hit2 => ?_, fun hnone => Option.noConfusion hnone⟩,
          fun h => RoomStatus.noConfusion h, fun h _ => absurd rfl h⟩
        cases Option.some.inj hit2
        rw [hadv]
        exact ⟨rfl, rfl, by simpa using hrounds_started QueuePhase.standard it⟩
    case lightning =>
      rcases hql : getNextQueuedItem db QueuePhase.lightning with _ | it
      · have h1 : startNextQueuedRound (updateRoundStatus db r.id RoundStatus.completed)
            QueuePhase.lightning
            = (false, updateRoundStatus db r.id RoundStatus.completed) :=
          startNextQueuedRound_none _ _ (by rw [hq1]; exact hql)
        have hadv : advanceToNextRound db
            = (false,
                updateRoomStatus (updateRoundStatus db r.id RoundStatus.completed)
                  RoomStatus.finished) := by
          simp [advanceToNextRound, hcur, hst1, hst, h1]
        refine ⟨fun h => Option.noConfusion h, by rw [hadv]; simp [hlen1], ?_⟩
        intro q hq
        cases Option.some.inj hq
        exact ⟨fun h => RoomStatus.noConfusion h,
          fun _ => ⟨fun it2 hit2 => Option.noConfusion hit2, fun _ => hadv⟩,
          fun _ h => absurd rfl h⟩
      · have h1 := hadv_started QueuePhase.lightning it hql
        have hadv : advanceToNextRound db
            = (true,
                updateRoomStatus
                  (createRound
                    (markQueuedItemPlayed (updateRoundStatus db r.id RoundStatus.completed)
                      QueuePhase.lightning it)
                    it (r.roundNumber + 1))
                  RoomStatus.lightning) := by
          simp [advanceToNextRound, hcur, hst1, hst, h1]
        refine ⟨fun h => Option.noConfusion h,
          by rw [hadv]; simp [hrounds_started QueuePhase.lightning it, hlen1], ?_⟩
        intro q hq
        cases Option.some.inj hq
        refine ⟨fun h => RoomStatus.noConfusion h,
          fun _ => ⟨fun it2 hit2 => ?_, fun hnone => Option.noConfusion hnone⟩,
          fun _ h => absurd rfl h⟩
        cases Option.some.inj hit2
        rw [hadv]
        exact ⟨rfl, rfl, by simpa using hrounds_started QueuePhase.lightning it⟩
    case lobby =>
      have hadv : advanceToNextRound db
          = (false, updateRoundStatus db r.id RoundStatus.completed) := by
        simp [advanceToNextRound, hcur, hst1, hst]
      refine ⟨fun h => Option.noConfusion h, by rw [hadv]; simp [hlen1], ?_⟩
      intro q hq
      cases Option.some.inj hq
      exact ⟨fun h => RoomStatus.noConfusion h, fun h => RoomStatus.noConfusion h,
        fun _ _ => hadv⟩
    case submitting =>
      have hadv : advanceToNextRound db
          = (false, updateRoundStatus db r.id RoundStatus.completed) := by
        simp [advanceToNextRound, hcur, hst1, hst]
      refine ⟨fun h => Option.noConfusion h, by rw [hadv]; simp [hlen1], ?_⟩
      intro q hq
      cases Option.some.inj hq
      exact ⟨fun h => RoomStatus.noConfusion h, fun h => RoomStatus.noConfusion h,
        fun _ _ => hadv⟩
    case results =>
      have hadv : advanceToNextRound db
          = (false, updateRoundStatus db r.id RoundStatus.completed) := by
        simp [advanceToNextRound, hcur, hst1, hst]
      refine ⟨fun h => Option.noConfusion h, by rw [hadv]; simp [hlen1], ?_⟩
      intro q hq
      cases Option.some.inj hq
      exact ⟨fun h => RoomStatus.noConfusion h, fun h => RoomStatus.noConfusion h,
        fun _ _ => hadv⟩
    case finished =>
      have hadv : advanceToNextRound db
          = (false, updateRoundStatus db r.id RoundStatus.completed) := by
        simp [advanceToNextRound, hcur, hst1, hst]
      refine ⟨fun h => Option.noConfusion h, by rw [hadv]; simp [hlen1], ?_⟩
      intro q hq
      cases Option.some.inj hq
      exact ⟨fun h => RoomStatus.noConfusion h, fun h => RoomStatus.noConfusion h,
        fun _ _ => hadv⟩


/-- Marking an entry played changes its flag only, never the stored item
ids of either queue. -/
theorem standardQueueIds_markQueuedItemPlayed (d : DB) (p : QueuePhase) (x : Nat) :
    (markQueuedItemPlayed d p x).standardQueue.map (fun e => e.guessItemId)
      = d.standardQueue.map (fun e => e.guessItemId) := by
  cases p
  · simp only [markQueuedItemPlayed, getQueue, setQueue, List.map_map]
    refine List.map_congr_left ?_
    intro e _
    by_cases h : e.guessItemId = x <;> simp [h]
  · rfl

theorem lightningQueueIds_markQueuedItemPlayed (d : DB) (p : QueuePhase) (x : Nat) :
    (markQueuedItemPlayed d p x).lightningQueue.map (fun e => e.guessItemId)
      = d.lightningQueue.map (fun e => e.guessItemId) := by
  cases p
  · rfl
  · simp only [markQueuedItemPlayed, getQueue, setQueue, List.map_map]
    refine List.map_congr_left ?_
    intro e _
    by_cases h : e.guessItemId = x <;> simp [h]

/-- `startNextQueuedRound` never changes the item ids stored in either
queue. -/
theorem startNextQueuedRound_queueIds (d : DB) (p : QueuePhase) :
    (startNextQueuedRound d p).2.standardQueue.map (fun e => e.guessItemId)
        = d.standardQueue.map (fun e => e.guessItemId) ∧
    (startNextQueuedRound d p).2.lightningQueue.map (fun e => e.guessItemId)
        = d.lightningQueue.map (fun e => e.guessItemId) := by
  cases hq : getNextQueuedItem d p with
  | none => rw [startNextQueuedRound_none d p hq]; exact ⟨rfl, rfl⟩
  | some it =>
    rw [startNextQueuedRound_some d p it hq]
    exact ⟨standardQueueIds_markQueuedItemPlayed d p it,
      lightningQueueIds_markQueuedItemPlayed d p it⟩

/-- The round-starting tail of `startGuessingPhase` (try standard, maybe
try lightning) never changes the item ids stored in either queue. -/
theorem startGuessingPhase_tail_queueIds (d : DB) (c : Bool) :
    ((if ((!(startNextQueuedRound d QueuePhase.standard).1 && c) = true) then
        (startNextQueuedRound (startNextQueuedRound d QueuePhase.standard).2
          QueuePhase.lightning).2
      else (startNextQueuedRound d QueuePhase.standard).2).standardQueue.map
        (fun e => e.guessItemId)
      = d.standardQueue.map (fun e => e.guessItemId)) ∧
    ((if ((!(startNextQueuedRound d QueuePhase.standard).1 && c) = true) then
        (startNextQueuedRound (startNextQueuedRound d QueuePhase.standard).2
          QueuePhase.lightning).2
      else (startNextQueuedRound d QueuePhase.standard).2).lightningQueue.map
        (fun e => e.guessItemId)
      = d.lightningQueue.map (fun e => e.guessItemId)) := by
  split
  · constructor
    · rw [(startNextQueuedRound_queueIds _ QueuePhase.lightning).1,
        (startNextQueuedRound_queueIds _ QueuePhase.standard).1]
    · rw [(startNextQueuedRound_queueIds _ QueuePhase.lightning).2,
        (startNextQueuedRound_queueIds _ QueuePhase.standard).2]
  · exact ⟨(startNextQueuedRound_queueIds _ _).1, (startNextQueuedRound_queueIds _ _).2⟩

/-- C2: when `startGuessingPhase` runs with more than 15 non-host players,
the first `min(10, count)` shuffled playable items (those with at least
one association) become the standard queue and the rest the lightning
queue; with 15 or fewer players all playable items go to the standard
queue and the lightning queue is empty. -/
theorem startGuessingPhase_queue_split (db : DB)
    (shuffle : List GuessItem → List GuessItem)
    (Hperm : (shuffle (playableItems db)).Perm (playableItems db))
    (Hne : playableItems db ≠ []) :
    ∃ db5, startGuessingPhase db shuffle = some db5 ∧
      ((db.users.filter (fun u => !u.isHost)).length > PLAYER_CAP_THRESHOLD →
        db5.standardQueue.map (fun e => e.guessItemId)
          = ((shuffle (playableItems db)).take
              (min MAX_STANDARD_ROUNDS (playableItems db).length)).map (fun i => i.id) ∧
        db5.lightningQueue.map (fun e => e.guessItemId)
          = ((shuffle (playableItems db)).drop
              (min MAX_STANDARD_ROUNDS (playableItems db).length)).map (fun i => i.id)) ∧
      ((db.users.filter (fun u => !u.isHost)).length ≤ PLAYER_CAP_THRESHOLD →
        db5.standardQueue.map (fun e => e.guessItemId)
          = (shuffle (playableItems db)).map (fun i => i.id) ∧
        db5.lightningQueue = []) := by
  have hlen : (shuffle (playableItems db)).length = (playableItems db).length :=
    Hperm.length_eq
  have hgi : (db.guessItems.length == 0) = false := by
    cases hg : db.guessItems with
    | nil => exact absurd (by simp [playableItems, hg]) Hne
    | cons a l => simp [hg]
  have hpl : ((playableItems db).length == 0) = false := by
    cases hp : playableItems db with
    | nil => exact absurd hp Hne
    | cons a l => simp [hp]
  simp only [startGuessingPhase, hgi, hpl, Bool.false_eq_true, if_false]
  refine ⟨_, rfl, ?_, ?_⟩
  · intro hcap
    rw [if_pos hcap]
    constructor
    · rw [(startGuessingPhase_tail_queueIds _ _).1]
      simp [setRoundQueue, setQueue, List.map_map, List.map_take, hlen]
      rfl
    · rw [(startGuessingPhase_tail_queueIds _ _).2]
      simp [setRoundQueue, setQueue, List.map_map, List.map_drop, hlen]
      rfl
  · intro hle
    have hncap : ¬((db.users.filter (fun u => !u.isHost)).length > PLAYER_CAP_THRESHOLD) := by
      omega
    rw [if_neg hncap]
    constructor
    · rw [(startGuessingPhase_tail_queueIds _ _).1]
      simp [setRoundQueue, setQueue, List.map_map, List.map_take]
    · rw [← List.map_eq_nil_iff (f := fun e : QueueEntry => e.guessItemId),
        (startGuessingPhase_tail_queueIds _ _).2]
      simp [setRoundQueue, setQueue, List.map_drop]

/-- Witness for the C2 theorem at the spec's capped scenario: 20 non-host
players and 12 playable items. -/
theorem startGuessingPhase_queue_split_witness :
    (idShuffle (playableItems dbBig)).Perm (playableItems dbBig) ∧
    playableItems dbBig ≠ [] ∧
    (∃ db5, startGuessingPhase dbBig idShuffle = some db5 ∧
      ((dbBig.users.filter (fun u => !u.isHost)).length > PLAYER_CAP_THRESHOLD →
        db5.standardQueue.map (fun e => e.guessItemId)
          = ((idShuffle (playableItems dbBig)).take
              (min MAX_STANDARD_ROUNDS (playableItems dbBig).length)).map (fun i => i.id) ∧
        db5.lightningQueue.map (fun e => e.guessItemId)
          = ((idShuffle (playableItems dbBig)).drop
              (min MAX_STANDARD_ROUNDS (playableItems dbBig).length)).map (fun i => i.id)) ∧
      ((dbBig.users.filter (fun u => !u.isHost)).length ≤ PLAYER_CAP_THRESHOLD →
        db5.standardQueue.map (fun e => e.guessItemId)
          = (idShuffle (playableItems dbBig)).map (fun i => i.id) ∧
        db5.lightningQueue = [])) :=
  ⟨List.Perm.refl _, by decide,
    startGuessingPhase_queue_split dbBig idShuffle (List.Perm.refl _) (by decide)⟩

/-- Splitting a quota off the front of the walk's total. -/
theorem quotaSum_succ (base rem idx n : Nat) :
    quotaSum base rem idx (n + 1)
      = assignQuota base rem idx + quotaSum base rem (idx + 1) n := rfl

/-- Closed form of `quotaSum`. -/
theorem quotaSum_eq (base rem : Nat) :
    ∀ n idx, quotaSum base rem idx n = base * n + (min rem (idx + n) - min rem idx) := by
  intro n
  induction n with
  | zero => intro idx; simp [quotaSum]
  | succ n ih =>
    intro idx
    rw [quotaSum_succ, ih (idx + 1), Nat.mul_succ]
    unfold assignQuota
    by_cases h : idx < rem
    · rw [if_pos h]; omega
    · rw [if_neg h]; omega

/-- The first components produced by `assignWalk` are the consumed prefix
of the shuffled player list. -/
theorem assignWalk_map_fst (base rem : Nat) :
    ∀ (items : List GuessItem) (ps : List User) (idx : Nat),
      (assignWalk ps items idx base rem).map Prod.fst
        = (ps.take (quotaSum base rem idx items.length)).map (fun u => u.id) := by
  intro items
  induction items with
  | nil => intro ps idx; simp [assignWalk, quotaSum]
  | cons item rest ih =>
    intro ps idx
    rw [show assignWalk ps (item :: rest) idx base rem
        = (ps.take (assignQuota base rem idx)).map (fun u => (u.id, item.id)) ++
          assignWalk (ps.drop (assignQuota base rem idx)) rest (idx + 1) base rem from rfl]
    rw [List.map_append, List.map_map, ih (ps.drop (assignQuota base rem idx)) (idx + 1),
      List.length_cons, quotaSum_succ, List.take_add, List.map_append]
    rfl

/-- Every pair produced by `assignWalk` carries the id of one of the
walked items. -/
theorem assignWalk_snd_mem (base rem : Nat) :
    ∀ (items : List GuessItem) (ps : List User) (idx : Nat) (pr : Nat × Nat),
      pr ∈ assignWalk ps items idx base rem → pr.2 ∈ items.map (fun i => i.id) := by
  intro items
  induction items with
  | nil => intro ps idx pr h; simp [assignWalk] at h
  | cons item rest ih =>
    intro ps idx pr h
    rw [assignWalk] at h
    rcases List.mem_append.mp h with h1 | h2
    · rcases List.mem_map.mp h1 with ⟨u, _, rfl⟩
      simp
    · simpa using Or.inr (ih _ _ _ h2)

/-- When the player list is long enough for the whole walk, item number
`idx + i` of the walk receives exactly its quota of players. -/
theorem assignWalk_count (base rem : Nat) :
    ∀ (items : List GuessItem) (ps : List User) (idx i : Nat) (hi : i < items.length),
      (items.map (fun it => it.id)).Nodup →
      quotaSum base rem idx items.length ≤ ps.length →
      ((assignWalk ps items idx base rem).filter
          (fun pr => pr.2 == (items.get ⟨i, hi⟩).id)).length
        = assignQuota base rem (idx + i) := by
  intro items
  induction items with
  | nil => intro ps idx i hi; exact absurd hi (Nat.not_lt_zero i)
  | cons item rest ih =>
    intro ps idx i hi hnodup hlen
    rw [List.length_cons, quotaSum_succ] at hlen
    have hnd : (∀ x ∈ rest, ¬x.id = item.id) ∧ (rest.map (fun it => it.id)).Nodup := by
      simpa using hnodup
    rcases i with _ | i
    · rw [assignWalk, List.filter_append, List.length_append]
      have hall : ∀ pr ∈ (ps.take (assignQuota base rem idx)).map
          (fun u => (u.id, item.id)),
          (fun pr : Nat × Nat => pr.2 == (((item :: rest).get ⟨0, hi⟩).id)) pr = true := by
        intro pr hpr
        rcases List.mem_map.mp hpr with ⟨u, _, rfl⟩
        simp
      have hnone : ∀ pr ∈ assignWalk (ps.drop (assignQuota base rem idx)) rest
          (idx + 1) base rem,
          ¬((fun pr : Nat × Nat => pr.2 == (((item :: rest).get ⟨0, hi⟩).id)) pr = true) := by
        intro pr hpr
        have hmem := assignWalk_snd_mem base rem rest _ _ pr hpr
        simp only [List.get, beq_iff_eq]
        intro heq
        rcases List.mem_map.mp hmem with ⟨x, hx, hxid⟩
        exact hnd.1 x hx (by rw [hxid, heq])
      rw [List.filter_eq_self.mpr hall, List.filter_eq_nil_iff.mpr hnone]
      simp only [List.length_map, List.length_nil, Nat.add_zero, List.length_take]
      have : assignQuota base rem idx ≤ ps.length := le_trans (Nat.le_add_right _ _) hlen
      omega
    · rw [assignWalk, List.filter_append, List.length_append]
      have hi2 : i < rest.length := by simpa using Nat.lt_of_succ_lt_succ hi
      have htarget : ((item :: rest).get ⟨i + 1, hi⟩) = rest.get ⟨i, hi2⟩ := rfl
      have hfirst : ∀ pr ∈ (ps.take (assignQuota base rem idx)).map
          (fun u => (u.id, item.id)),
          ¬((fun pr : Nat × Nat => pr.2 == (((item :: rest).get ⟨i + 1, hi⟩).id)) pr
            = true) := by
        intro pr hpr
        rcases List.mem_map.mp hpr with ⟨u, _, rfl⟩
        rw [htarget]
        simp only [beq_iff_eq]
        intro heq
        exact hnd.1 (rest.get ⟨i, hi2⟩) (List.get_mem rest i hi2) heq.symm
      rw [List.filter_eq_nil_iff.mpr hfirst, htarget]
      have hrec := ih (ps.drop (assignQuota base rem idx)) (idx + 1) i hi2 hnd.2
        (by rw [List.length_drop]; omega)
      rw [List.length_nil, Nat.zero_add, hrec]
      show assignQuota base rem (idx + 1 + i) = assignQuota base rem (idx + (i + 1))
      rw [Nat.add_assoc, Nat.add_comm 1 i]

/-- Filtering pairs on the first component counts occurrences among the
mapped first components. -/
theorem length_filter_fst (l : List (Nat × Nat)) (x : Nat) :
    (l.filter (fun pr => pr.1 == x)).length
      = ((l.map Prod.fst).filter (fun y => y == x)).length := by
  induction l with
  | nil => rfl
  | cons pr rest ih =>
    by_cases h : (pr.1 == x) = true <;>
      simp [List.filter_cons, h, ih]

/-- In a duplicate-free list a present element is matched exactly once. -/
theorem nodup_filter_beq (l : List Nat) (x : Nat) (hnd : l.Nodup) (hx : x ∈ l) :
    (l.filter (fun y => y == x)).length = 1 := by
  induction l with
  | nil => cases hx
  | cons a rest ih =>
    rw [List.filter_cons]
    by_cases hax : (a == x) = true
    · rw [if_pos hax]
      have ha : a = x := beq_iff_eq.mp hax
      have hnone : ∀ y ∈ rest, ¬((fun y => y == x) y = true) := by
        intro y hy heq
        have hyx : y = x := beq_iff_eq.mp heq
        exact (List.nodup_cons.mp hnd).1 (ha ▸ hyx ▸ hy)
      rw [List.filter_eq_nil_iff.mpr hnone]
      rfl
    · rw [if_neg hax]
      refine ih (List.nodup_cons.mp hnd).2 ?_
      rcases List.mem_cons.mp hx with heq | hx2
      · exact absurd (by rw [heq]; exact beq_self_eq_true a) hax
      · exact hx2

/-- C3: with `1 ≤ M ≤ N` (M items, N non-host players, distinct ids),
`assignGuessItems` pairs every player with exactly one item, the first
`N mod M` items in order-index order receive `⌊N/M⌋ + 1` players, every
other item receives `⌊N/M⌋`, and `⌊N/M⌋ ≥ 1`. -/
theorem assignGuessItems_even (db : DB) (shuffle : List User → List User)
    (HM : 1 ≤ db.guessItems.length)
    (HNM : db.guessItems.length ≤ (db.users.filter (fun u => !u.isHost)).length)
    (Hperm : (shuffle (db.users.filter (fun u => !u.isHost))).Perm
      (db.users.filter (fun u => !u.isHost)))
    (Hnodup : ((db.users.filter (fun u => !u.isHost)).map (fun u => u.id)).Nodup)
    (Hitems : (db.guessItems.map (fun it => it.id)).Nodup) :
    ∃ asg, assignGuessItems db shuffle = some asg ∧
      asg.map Prod.fst
        = (shuffle (db.users.filter (fun u => !u.isHost))).map (fun u => u.id) ∧
      (∀ u ∈ db.users.filter (fun u => !u.isHost),
        (asg.filter (fun pr => pr.1 == u.id)).length = 1) ∧
      (∀ i, (hi : i < db.guessItems.length) →
        (asg.filter (fun pr => pr.2 == (db.guessItems.get ⟨i, hi⟩).id)).length
          = (db.users.filter (fun u => !u.isHost)).length / db.guessItems.length
            + (if i < (db.users.filter (fun u => !u.isHost)).length
                    % db.guessItems.length
               then 1 else 0)) ∧
      1 ≤ (db.users.filter (fun u => !u.isHost)).length / db.guessItems.length := by
  have hM0 : 0 < db.guessItems.length := HM
  have hN0 : 0 < (db.users.filter (fun u => !u.isHost)).length :=
    Nat.lt_of_lt_of_le hM0 HNM
  have hMne : (db.guessItems.length == 0) = false := by
    simp only [beq_eq_false_iff_ne]
    omega
  have hNne : (((db.users.filter (fun u => !u.isHost)).length : Nat) == 0) = false := by
    simp only [beq_eq_false_iff_ne]
    omega
  have hslen : (shuffle (db.users.filter (fun u => !u.isHost))).length
      = (db.users.filter (fun u => !u.isHost)).length := Hperm.length_eq
  have htotal : quotaSum ((db.users.filter (fun u => !u.isHost)).length
        / db.guessItems.length)
      ((db.users.filter (fun u => !u.isHost)).length % db.guessItems.length) 0
      db.guessItems.length
      = (db.users.filter (fun u => !u.isHost)).length := by
    have hmod : (db.users.filter (fun u => !u.isHost)).length % db.guessItems.length
        < db.guessItems.length := Nat.mod_lt _ hM0
    rw [quotaSum_eq]
    simp only [Nat.zero_add, Nat.min_zero, Nat.sub_zero]
    rw [Nat.min_eq_left (le_of_lt hmod),
      Nat.mul_comm ((db.users.filter (fun u => !u.isHost)).length
        / db.guessItems.length) db.guessItems.length]
    exact Nat.div_add_mod _ _
  have hfst : (assignWalk (shuffle (db.users.filter (fun u => !u.isHost)))
        db.guessItems 0
        ((db.users.filter (fun u => !u.isHost)).length / db.guessItems.length)
        ((db.users.filter (fun u => !u.isHost)).length % db.guessItems.length)).map
        Prod.fst
      = (shuffle (db.users.filter (fun u => !u.isHost))).map (fun u => u.id) := by
    rw [assignWalk_map_fst, htotal, ← hslen, List.take_length]
  refine ⟨assignWalk (shuffle (db.users.filter (fun u => !u.isHost))) db.guessItems 0
      ((db.users.filter (fun u => !u.isHost)).length / db.guessItems.length)
      ((db.users.filter (fun u => !u.isHost)).length % db.guessItems.length),
    ?_, ?_, ?_, ?_, ?_⟩
  · simp [assignGuessItems, hMne, hNne]
  · exact hfst
  · intro u hu
    rw [length_filter_fst, hfst]
    have hperm2 : ((shuffle (db.users.filter (fun u => !u.isHost))).map
        (fun u => u.id)).Perm
        ((db.users.filter (fun u => !u.isHost)).map (fun u => u.id)) := Hperm.map _
    rw [(hperm2.filter _).length_eq]
    exact nodup_filter_beq _ _ Hnodup (List.mem_map.mpr ⟨u, hu, rfl⟩)
  · intro i hi
    have := assignWalk_count
      ((db.users.filter (fun u => !u.isHost)).length / db.guessItems.length)
      ((db.users.filter (fun u => !u.isHost)).length % db.guessItems.length)
      db.guessItems (shuffle (db.users.filter (fun u => !u.isHost))) 0 i hi Hitems
      (by rw [htotal, hslen])
    rw [this]
    simp [assignQuota]
  · exact Nat.div_pos HNM hM0

/-- Witness for the C3 theorem: the 4-player, 4-item room `dbGame` with
the identity shuffle. -/
theorem assignGuessItems_even_witness :
    1 ≤ dbGame.guessItems.length ∧
    dbGame.guessItems.length ≤ (dbGame.users.filter (fun u => !u.isHost)).length ∧
    ((fun l : List User => l) (dbGame.users.filter (fun u => !u.isHost))).Perm
      (dbGame.users.filter (fun u => !u.isHost)) ∧
    ((dbGame.users.filter (fun u => !u.isHost)).map (fun u => u.id)).Nodup ∧
    (dbGame.guessItems.map (fun it => it.id)).Nodup ∧
    (∃ asg, assignGuessItems dbGame (fun l => l) = some asg ∧
      asg.map Prod.fst
        = ((fun l : List User => l) (dbGame.users.filter (fun u => !u.isHost))).map
            (fun u => u.id) ∧
      (∀ u ∈ dbGame.users.filter (fun u => !u.isHost),
        (asg.filter (fun pr => pr.1 == u.id)).length = 1) ∧
      (∀ i, (hi : i < dbGame.guessItems.length) →
        (asg.filter (fun pr => pr.2 == (dbGame.guessItems.get ⟨i, hi⟩).id)).length
          = (dbGame.users.filter (fun u => !u.isHost)).length / dbGame.guessItems.length
            + (if i < (dbGame.users.filter (fun u => !u.isHost)).length
                    % dbGame.guessItems.length
               then 1 else 0)) ∧
      1 ≤ (dbGame.users.filter (fun u => !u.isHost)).length / dbGame.guessItems.length) :=
  ⟨by decide, by decide, List.Perm.refl _, by decide, by decide,
    assignGuessItems_even dbGame (fun l => l) (by decide) (by decide)
      (List.Perm.refl _) (by decide) (by decide)⟩

/-- C4: refuted on the code — `handleRevealAnswer` has no guard on the
round's status, so a reachable message sequence in which the host sends
`reveal_answer` twice for the same round runs `awardPoints` twice:
player 2's single correct guess in round 1 is credited 10 points after
one `reveal_answer` and 20 points after a repeated one. -/
theorem revealAnswer_twice_double_awards :
    scoreOf (runMsgs idShuffle idShuffle dbGame
      [Msg.submitGuess 2 (some 10), Msg.revealVotes 1, Msg.revealAnswer 1]) 2
      = some 10 ∧
    scoreOf (runMsgs idShuffle idShuffle dbGame
      [Msg.submitGuess 2 (some 10), Msg.revealVotes 1, Msg.revealAnswer 1,
       Msg.revealAnswer 1]) 2 = some 20 := by
  decide

/-- The unique-id filter of the option join: with duplicate-free item ids,
filtering the item table on a present item's id yields that item alone. -/
theorem filter_id_singleton (items : List GuessItem) (o : GuessItem)
    (hnd : (items.map (fun it => it.id)).Nodup) (ho : o ∈ items) :
    items.filter (fun it => it.id == o.id) = [o] := by
  induction items with
  | nil => cases ho
  | cons a rest ih =>
    have hnd2 : (∀ x ∈ rest, ¬x.id = a.id) ∧ (rest.map (fun it => it.id)).Nodup := by
      simpa using hnd
    rw [List.filter_cons]
    rcases List.mem_cons.mp ho with heq | ho2
    · subst heq
      rw [if_pos (beq_self_eq_true _)]
      have hnone : ∀ x ∈ rest, ¬((fun it : GuessItem => it.id == o.id) x = true) :=
        fun x hx hbeq => hnd2.1 x hx (beq_iff_eq.mp hbeq)
      rw [List.filter_eq_nil_iff.mpr hnone]
    · by_cases hao : (a.id == o.id) = true
      · exact absurd (beq_iff_eq.mp hao).symm (hnd2.1 o ho2)
      · rw [if_neg hao]
        exact ih hnd2.2 ho2

/-- Reading back persisted option ids through the item join returns the
persisted options themselves. -/
theorem flatMap_filter_id (items : List GuessItem)
    (hnd : (items.map (fun it => it.id)).Nodup) :
    ∀ (opts : List GuessItem), (∀ o ∈ opts, o ∈ items) →
      (opts.map (fun o => o.id)).flatMap
          (fun oid => items.filter (fun it => it.id == oid))
        = opts := by
  intro opts
  induction opts with
  | nil => intro _; rfl
  | cons o rest ih =>
    intro hmem
    rw [List.map_cons, List.flatMap_cons,
      filter_id_singleton items o hnd (hmem o (List.mem_cons_self o rest)),
      ih (fun x hx => hmem x (List.mem_cons_of_mem o hx))]
    rfl

/-- What a successful `ensureRoundOptions` leaves behind: persisted
options for the round, and untouched guesses and rounds. -/
theorem ensureRoundOptions_facts (db : DB) (num cid : Nat)
    (s1 s2 : List GuessItem → List GuessItem)
    (Hs2 : ∀ l, (s2 l).Perm l)
    (options : List GuessItem) (db1 : DB)
    (heq : ensureRoundOptions db num cid s1 s2 = some (options, db1)) :
    (getRoundOptions db1 num).length > 0 ∧
    db1.guesses = db.guesses ∧
    db1.rounds = db.rounds := by
  unfold ensureRoundOptions at heq
  by_cases hex : (getRoundOptions db num).length > 0
  · rw [if_pos hex] at heq
    cases heq
    exact ⟨hex, rfl, rfl⟩
  · rw [if_neg hex] at heq
    rcases hopt : getGuessOptions db cid s1 s2 with _ | opts
    · rw [hopt] at heq; cases heq
    · rw [hopt] at heq
      cases heq
      simp only [getGuessOptions] at hopt
      rcases hfind : db.guessItems.find? (fun i => i.id == cid) with _ | correct
      · rw [hfind] at hopt; cases hopt
      · rw [hfind] at hopt
        cases hopt
        have hcmem : correct ∈ db.guessItems := List.mem_of_find?_eq_some hfind
        have hcor : correct ∈ s2 (correct ::
            (s1 (db.guessItems.filter (fun i => !(i.id == cid)))).take
              (min 3 (s1 (db.guessItems.filter (fun i => !(i.id == cid)))).length)) :=
          (Hs2 _).mem_iff.mpr (List.mem_cons_self _ _)
        have hids : getRoundOptionIds
            (setRoundOptions db num
              ((s2 (correct ::
                (s1 (db.guessItems.filter (fun i => !(i.id == cid)))).take
                  (min 3 (s1 (db.guessItems.filter
                    (fun i => !(i.id == cid)))).length))).map (fun o => o.id)))
            num
            = (s2 (correct ::
                (s1 (db.guessItems.filter (fun i => !(i.id == cid)))).take
                  (min 3 (s1 (db.guessItems.filter
                    (fun i => !(i.id == cid)))).length))).map (fun o => o.id) := by
          simp [getRoundOptionIds, setRoundOptions]
        refine ⟨?_, rfl, rfl⟩
        have hmem2 : correct ∈ getRoundOptions
            (setRoundOptions db num
              ((s2 (correct ::
                (s1 (db.guessItems.filter (fun i => !(i.id == cid)))).take
                  (min 3 (s1 (db.guessItems.filter
                    (fun i => !(i.id == cid)))).length))).map (fun o => o.id)))
            num := by
          unfold getRoundOptions
          rw [hids]
          exact List.mem_flatMap.mpr ⟨correct.id,
            List.mem_map.mpr ⟨correct, hcor, rfl⟩,
            List.mem_filter.mpr ⟨hcmem, beq_self_eq_true _⟩⟩
        exact List.length_pos.mpr (List.ne_nil_of_mem hmem2)

/-- A `submit_guess` message is a complete no-op whenever the round's
options already exist and the sender already has a guess for the
current round: no state change and no broadcast. -/
theorem handleSubmitGuess_noop (d : DB) (u : Nat) (q : Option Nat)
    (t1 t2 : List GuessItem → List GuessItem) (r : Round)
    (Hcur : getCurrentRound d = some r)
    (Hopts : (getRoundOptions d r.roundNumber).length > 0)
    (Hex : (getGuessByUserAndRound d u r.roundNumber).isSome) :
    handleSubmitGuess d u q t1 t2 = (d, []) := by
  have hens : ensureRoundOptions d r.roundNumber r.guessItemId t1 t2
      = some (getRoundOptions d r.roundNumber, d) := by
    unfold ensureRoundOptions
    rw [if_pos Hopts]
  rcases hEx2 : getGuessByUserAndRound d u r.roundNumber with _ | gg
  · rw [hEx2] at Hex; simp at Hex
  · by_cases hst : (r.status == RoundStatus.active) = true
    · by_cases helig :
          ((getEligibleGuessers d r.guessItemId).any (fun v => v.id == u)) = true
      · rcases q with _ | g
        · simp [handleSubmitGuess, Hcur, hst, helig, hens]
        · by_cases hg0 : (g == 0) = true
          · simp [handleSubmitGuess, Hcur, hst, helig, hens, hg0]
          · simp [handleSubmitGuess, Hcur, hst, helig, hens, hg0, hEx2]
      · simp [handleSubmitGuess, Hcur, helig]
    · simp [handleSubmitGuess, Hcur, hst]

/-- C7: two `submit_guess` messages from the same user for the same round
leave at most one Guess record, and once a guess for the (user, round)
pair exists after the first message, exactly one record exists and a
repeated `submit_guess` is a complete no-op: the state is unchanged and
nothing is broadcast. -/
theorem submitGuess_second_noop (db : DB) (u : Nat) (p : Option Nat) (r : Round)
    (s1 s2 : List GuessItem → List GuessItem)
    (Hs2 : ∀ l, (s2 l).Perm l)
    (Hcur : getCurrentRound db = some r)
    (Hno : getGuessByUserAndRound db u r.roundNumber = none) :
    countGuessPair (handleSubmitGuess db u p s1 s2).1 u r.roundNumber ≤ 1 ∧
    ((getGuessByUserAndRound (handleSubmitGuess db u p s1 s2).1 u r.roundNumber).isSome →
      countGuessPair (handleSubmitGuess db u p s1 s2).1 u r.roundNumber = 1 ∧
      ∀ q t1 t2, handleSubmitGuess (handleSubmitGuess db u p s1 s2).1 u q t1 t2
        = ((handleSubmitGuess db u p s1 s2).1, [])) := by
  have hfilter : db.guesses.filter
      (fun g => g.userId == u && g.roundNumber == r.roundNumber) = [] :=
    List.head?_eq_none_iff.mp Hno
  have hsame : ∀ d : DB, d.guesses = db.guesses →
      getGuessByUserAndRound d u r.roundNumber = none ∧
      countGuessPair d u r.roundNumber = 0 := by
    intro d hd
    unfold getGuessByUserAndRound countGuessPair
    rw [hd, hfilter]
    exact ⟨rfl, rfl⟩
  have hdone : ∀ S : DB, S.guesses = db.guesses →
      (countGuessPair S u r.roundNumber ≤ 1 ∧
        ((getGuessByUserAndRound S u r.roundNumber).isSome →
          countGuessPair S u r.roundNumber = 1 ∧
          ∀ q t1 t2, handleSubmitGuess S u q t1 t2 = (S, []))) := by
    intro S hS
    obtain ⟨h1, h2⟩ := hsame S hS
    refine ⟨by omega, ?_⟩
    intro hiso
    rw [h1] at hiso
    simp at hiso
  by_cases hst : (r.status == RoundStatus.active) = true
  case neg =>
    have hrun1 : (handleSubmitGuess db u p s1 s2).1 = db := by
      simp [handleSubmitGuess, Hcur, hst]
    rw [hrun1]
    exact hdone db rfl
  case pos =>
  by_cases helig :
      ((getEligibleGuessers db r.guessItemId).any (fun v => v.id == u)) = true
  case neg =>
    have hrun1 : (handleSubmitGuess db u p s1 s2).1 = db := by
      simp [handleSubmitGuess, Hcur, hst, helig]
    rw [hrun1]
    exact hdone db rfl
  case pos =>
  rcases hens : ensureRoundOptions db r.roundNumber r.guessItemId s1 s2 with _ | pr
  · have hrun1 : (handleSubmitGuess db u p s1 s2).1 = db := by
      simp [handleSubmitGuess, Hcur, hst, helig, hens]
    rw [hrun1]
    exact hdone db rfl
  · obtain ⟨options, db1⟩ := pr
    obtain ⟨hopts1, hg1, hr1⟩ :=
      ensureRoundOptions_facts db r.roundNumber r.guessItemId s1 s2 Hs2 options db1 hens
    rcases p with _ | g
    · have hrun1 : (handleSubmitGuess db u none s1 s2).1 = db1 := by
        simp [handleSubmitGuess, Hcur, hst, helig, hens]
      rw [hrun1]
      exact hdone db1 hg1
    · by_cases hg0 : (g == 0) = true
      case pos =>
        have hrun1 : (handleSubmitGuess db u (some g) s1 s2).1 = db1 := by
          simp [handleSubmitGuess, Hcur, hst, helig, hens, hg0]
        rw [hrun1]
        exact hdone db1 hg1
      case neg =>
      by_cases hgmem : g ∈ options.map (fun o => o.id)
      case neg =>
        have hform : ∀ x ∈ options, ¬x.id = g :=
          fun x hx heq => hgmem (List.mem_map.mpr ⟨x, hx, heq⟩)
        have hrun1 : (handleSubmitGuess db u (some g) s1 s2).1 = db1 := by
          simp [handleSubmitGuess, Hcur, hst, helig, hens, hg0]
          rw [if_pos hform]
        rw [hrun1]
        exact hdone db1 hg1
      case pos =>
      obtain ⟨o, ho, hoid⟩ := List.mem_map.mp hgmem
      have hform : ¬∀ x ∈ options, ¬x.id = g := fun hall => hall o ho hoid
      have hnone1 : getGuessByUserAndRound db1 u r.roundNumber = none :=
        (hsame db1 hg1).1
      have hrun1 : (handleSubmitGuess db u (some g) s1 s2).1
          = createGuess db1 u r.guessItemId g r.roundNumber := by
        simp [handleSubmitGuess, Hcur, hst, helig, hens, hg0, hnone1]
        rw [if_neg hform]
      have hguesses2 : (createGuess db1 u r.guessItemId g r.roundNumber).guesses
          = db.guesses ++ [Guess.mk u r.guessItemId g r.roundNumber] := by
        unfold createGuess
        rw [hg1]
      have hcnt : countGuessPair (createGuess db1 u r.guessItemId g r.roundNumber)
          u r.roundNumber = 1 := by
        unfold countGuessPair
        rw [hguesses2, List.filter_append, hfilter]
        simp
      have hex2 : (getGuessByUserAndRound (createGuess db1 u r.guessItemId g
          r.roundNumber) u r.roundNumber).isSome = true := by
        unfold getGuessByUserAndRound
        rw [hguesses2, List.filter_append, hfilter]
        simp
      have hcur2 : getCurrentRound (createGuess db1 u r.guessItemId g r.roundNumber)
          = some r := by
        show pickLatest none (createGuess db1 u r.guessItemId g r.roundNumber).rounds
          = some r
        rw [show (createGuess db1 u r.guessItemId g r.roundNumber).rounds
          = db1.rounds from rfl, hr1]
        exact Hcur
      have hopts2 : (getRoundOptions (createGuess db1 u r.guessItemId g r.roundNumber)
          r.roundNumber).length > 0 := hopts1
      rw [hrun1]
      refine ⟨by omega, fun _ => ⟨hcnt, ?_⟩⟩
      intro q t1 t2
      exact handleSubmitGuess_noop _ u q t1 t2 r hcur2 hopts2 hex2

/-- Witness for the C7 theorem: player 2 submits a valid guess in `dbGame`
round 1, then submits again. -/
theorem submitGuess_second_noop_witness :
    (∀ l, (idShuffle l).Perm l) ∧
    getCurrentRound dbGame
      = some { id := 100, guessItemId := 10, roundNumber := 1,
               status := RoundStatus.active } ∧
    getGuessByUserAndRound dbGame 2 1 = none ∧
    (countGuessPair (handleSubmitGuess dbGame 2 (some 10) idShuffle idShuffle).1 2 1 ≤ 1 ∧
      ((getGuessByUserAndRound (handleSubmitGuess dbGame 2 (some 10) idShuffle
          idShuffle).1 2 1).isSome →
        countGuessPair (handleSubmitGuess dbGame 2 (some 10) idShuffle idShuffle).1 2 1
          = 1 ∧
        ∀ q t1 t2, handleSubmitGuess (handleSubmitGuess dbGame 2 (some 10) idShuffle
            idShuffle).1 2 q t1 t2
          = ((handleSubmitGuess dbGame 2 (some 10) idShuffle idShuffle).1, []))) :=
  ⟨fun l => List.Perm.refl l, by decide, by decide,
    submitGuess_second_noop dbGame 2 (some 10)
      { id := 100, guessItemId := 10, roundNumber := 1, status := RoundStatus.active }
      idShuffle idShuffle (fun l => List.Perm.refl l) (by decide) (by decide)⟩

/-- C8: `ensureRoundOptions` is idempotent per (room, round): when options
already exist it returns them without mutating the store, so two
successive calls — whatever fresh randomness the second draws — return
the identical option list and the identical state. -/
theorem ensureRoundOptions_idempotent (db : DB) (num cid : Nat)
    (s1 s2 t1 t2 : List GuessItem → List GuessItem)
    (Hids : (db.guessItems.map (fun it => it.id)).Nodup)
    (Hs1 : ∀ l, (s1 l).Perm l) (Hs2 : ∀ l, (s2 l).Perm l)
    (Hok : (ensureRoundOptions db num cid s1 s2).isSome = true) :
    ∃ opts db1, ensureRoundOptions db num cid s1 s2 = some (opts, db1) ∧
      ensureRoundOptions db1 num cid t1 t2 = some (opts, db1) := by
  by_cases hex : (getRoundOptions db num).length > 0
  · refine ⟨getRoundOptions db num, db, ?_, ?_⟩ <;>
      · unfold ensureRoundOptions
        rw [if_pos hex]
  · rcases hopt : getGuessOptions db cid s1 s2 with _ | options
    · exfalso
      unfold ensureRoundOptions at Hok
      rw [if_neg hex, hopt] at Hok
      simp at Hok
    · refine ⟨options, setRoundOptions db num (options.map (fun o => o.id)), ?_, ?_⟩
      · unfold ensureRoundOptions
        rw [if_neg hex, hopt]
      · have hmemopts : ∀ o ∈ options, o ∈ db.guessItems := by
          simp only [getGuessOptions] at hopt
          rcases hfind : db.guessItems.find? (fun i => i.id == cid) with _ | correct
          · rw [hfind] at hopt; cases hopt
          · rw [hfind] at hopt
            cases hopt
            intro o ho
            have := (Hs2 _).mem_iff.mp ho
            rcases List.mem_cons.mp this with rfl | htail
            · exact List.mem_of_find?_eq_some hfind
            · have := (Hs1 _).mem_iff.mp (List.mem_of_mem_take htail)
              exact (List.mem_filter.mp this).1
        have hids2 : getRoundOptionIds
            (setRoundOptions db num (options.map (fun o => o.id))) num
            = options.map (fun o => o.id) := by
          simp [getRoundOptionIds, setRoundOptions]
        have hro : getRoundOptions
            (setRoundOptions db num (options.map (fun o => o.id))) num = options := by
          unfold getRoundOptions
          rw [hids2]
          exact flatMap_filter_id db.guessItems Hids options hmemopts
        have hlen : options.length > 0 := by
          simp only [getGuessOptions] at hopt
          rcases hfind : db.guessItems.find? (fun i => i.id == cid) with _ | correct
          · rw [hfind] at hopt; cases hopt
          · rw [hfind] at hopt
            cases hopt
            rw [(Hs2 _).length_eq]
            simp
        unfold ensureRoundOptions
        rw [hro, if_pos hlen]

/-- Witness for the C8 theorem: round 1 of `dbGame` with correct item 10
and fresh identity shuffles on both calls. -/
theorem ensureRoundOptions_idempotent_witness :
    (dbGame.guessItems.map (fun it => it.id)).Nodup ∧
    (∀ l, (idShuffle l).Perm l) ∧
    (ensureRoundOptions dbGame 1 10 idShuffle idShuffle).isSome = true ∧
    (∃ opts db1, ensureRoundOptions dbGame 1 10 idShuffle idShuffle
        = some (opts, db1) ∧
      ensureRoundOptions db1 1 10 idShuffle idShuffle = some (opts, db1)) :=
  ⟨by decide, fun l => List.Perm.refl l, by decide,
    ensureRoundOptions_idempotent dbGame 1 10 idShuffle idShuffle idShuffle idShuffle
      (by decide) (fun l => List.Perm.refl l) (fun l => List.Perm.refl l) (by decide)⟩

/-- C5: refuted on the code — `handleRevealVotes` has no guard on the
round's status, so after the host reveals the answer (round status
`revealed`) a further `reveal_votes` message moves the same round back
to `voting`: the round status regresses. -/
theorem roundStatus_regresses_after_reveal :
    currentRoundStatus (runMsgs idShuffle idShuffle dbGame
      [Msg.submitGuess 2 (some 10), Msg.revealVotes 1, Msg.revealAnswer 1])
      = some RoundStatus.revealed ∧
    currentRoundStatus (runMsgs idShuffle idShuffle dbGame
      [Msg.submitGuess 2 (some 10), Msg.revealVotes 1, Msg.revealAnswer 1,
       Msg.revealVotes 1]) = some RoundStatus.voting := by
  decide

/-- C6 counterexample: the store adapter does not reject duplicates — a
second `createAssociation` for the pair `(1, 2)` and a second
`createGuess` for the pair `(1, round 3)` both succeed, leaving two
records for the pair. -/
theorem store_accepts_duplicate_pair :
    countAssociationPair (createAssociation dbDup 1 2 "again") 1 2 = 2 ∧
    countGuessPair (createGuess dbDup 1 10 12 3) 1 3 = 2 := by
  decide

/-- C6 (amended): the store adapter enforces no uniqueness on
`(userId, guessItemId)` or `(userId, roundNumber)`: `createAssociation`
and `createGuess` unconditionally append a row, so an insert for an
already-present pair increments the pair's record count instead of
being rejected; only the engine's check-before-insert guards
uniqueness. -/
theorem store_insert_always_appends (db : DB) (u i g n : Nat) (v : String) :
    countAssociationPair (createAssociation db u i v) u i
      = countAssociationPair db u i + 1 ∧
    countGuessPair (createGuess db u i g n) u n = countGuessPair db u n + 1 := by
  constructor
  · simp [countAssociationPair, createAssociation, List.filter_append]
  · simp [countGuessPair, createGuess, List.filter_append]

/-- C10: a join request for a lobby room with valid code and nickname is
rejected with a 400 "Room is full" error and creates no user when the
room already holds 50 or more users (host included); with fewer than 50
users it creates exactly one new non-host user.  The 50-user limit is
hard-coded in the route and stated nowhere in the spec. -/
theorem joinRoom_capacity (db : DB) (code nickname : String) (uid : Nat)
    (Hcode : (trimString code == "") = false)
    (Hnick : ((takeString 20 (trimString nickname)) == "") = false)
    (Hmatch : (upperString (trimString code) == db.roomCode) = true)
    (Hlobby : (db.roomStatus == RoomStatus.lobby) = true) :
    (db.users.length ≥ 50 →
      joinRoom db code nickname uid = (ApiReply.err 400 "Room is full", db)) ∧
    (db.users.length < 50 →
      joinRoom db code nickname uid
        = (ApiReply.ok (User.mk uid (takeString 20 (trimString nickname)) 0 false),
            { db with users := db.users ++
                [User.mk uid (takeString 20 (trimString nickname)) 0 false] }) ∧
      (User.mk uid (takeString 20 (trimString nickname)) 0 false).isHost = false) := by
  constructor
  · intro hfull
    simp [joinRoom, Hcode, Hnick, Hmatch, Hlobby, hfull]
  · intro hlt
    have hnotfull : ¬(db.users.length ≥ 50) := by omega
    refine ⟨?_, rfl⟩
    simp [joinRoom, Hcode, Hnick, Hmatch, Hlobby, hnotfull, createUser]

/-- Witness for the C10 theorem: the 50-user lobby room `dbFull` rejects
a further valid join request as full. -/
theorem joinRoom_capacity_witness :
    (trimString "full" == "") = false ∧
    ((takeString 20 (trimString "newbie")) == "") = false ∧
    (upperString (trimString "full") == dbFull.roomCode) = true ∧
    (dbFull.roomStatus == RoomStatus.lobby) = true ∧
    ((dbFull.users.length ≥ 50 →
      joinRoom dbFull "full" "newbie" 999 = (ApiReply.err 400 "Room is full", dbFull)) ∧
    (dbFull.users.length < 50 →
      joinRoom dbFull "full" "newbie" 999
        = (ApiReply.ok (User.mk 999 (takeString 20 (trimString "newbie")) 0 false),
            { dbFull with users := dbFull.users ++
                [User.mk 999 (takeString 20 (trimString "newbie")) 0 false] }) ∧
      (User.mk 999 (takeString 20 (trimString "newbie")) 0 false).isHost = false)) :=
  ⟨by decide, by decide, by decide, by decide,
    joinRoom_capacity dbFull "full" "newbie" 999 (by decide) (by decide)
      (by decide) (by decide)⟩

end Rabble
